import Mathlib

/-!
# Verification of the Academic Stress dashboard core

Shallow embedding of the data-loading / metrics pipeline of the repository
(`app.py` and the concatenated pages file `Page 2.py`/`Page 3.py`).

Column names are modelled as lists of Unicode codepoints (`List Nat`), so
that the pandas string operations `str.strip` / `str.lower` /
`str.replace(" ", "_")` become plain list functions amenable to proof.
Lower-casing is modelled on the ASCII range (the dataset's column names are
ASCII), matching `str.lower` there.
-/

namespace StressDash

/-- A column name: list of Unicode codepoints. -/
abbrev Name := List Nat

/-- Codepoints of a Lean string literal, for writing concrete names. -/
def codes (s : String) : Name := s.data.map Char.toNat

/-- Whitespace test used by Python's `str.strip()`:
space, tab, newline, carriage return, vertical tab, form feed. -/
def pySpace (c : Nat) : Bool :=
  decide (c = 32 ∨ c = 9 ∨ c = 10 ∨ c = 13 ∨ c = 11 ∨ c = 12)

/-- ASCII lower-casing of one codepoint, as `str.lower` acts on ASCII. -/
def lowerChar (c : Nat) : Nat :=
  if 65 ≤ c ∧ c ≤ 90 then c + 32 else c

/-- `str.lower()` on a name. -/
def lowerName (s : Name) : Name := s.map lowerChar

/-- `str.strip()` : drop leading and trailing whitespace. -/
def strip (s : Name) : Name :=
  ((s.dropWhile pySpace).reverse.dropWhile pySpace).reverse

/-- `str.replace(" ", "_")` : every space becomes an underscore. -/
def spacesToUnderscores (s : Name) : Name :=
  s.map (fun c => if c == 32 then 95 else c)

/-- Column-name canonicalization performed by `load_data` in `app.py`
(line 20) and in `Page 3.py` (line 74):
`df.columns.str.strip().str.lower().str.replace(" ", "_")`. -/
def canonicalize (s : Name) : Name :=
  spacesToUnderscores (lowerName (strip s))

/-- Python's `needle in hay` substring test on codepoint lists. -/
def substringOf (needle : Name) : Name → Bool
  | [] => needle.isEmpty
  | c :: rest => needle.isPrefixOf (c :: rest) || substringOf needle rest

/-- `"stress" in c.lower()` : the substring test of `get_stress_column`
(`app.py` lines 26–30). -/
def hasStress (c : Name) : Bool :=
  substringOf (codes "stress") (lowerName c)

/-- `get_stress_column` (`app.py` lines 26–30): first column name, in
declared order, containing `"stress"` after lower-casing; `none` otherwise. -/
def get_stress_column (cols : List Name) : Option Name :=
  cols.find? hasStress

/-! ## Table model

A pandas `DataFrame` is modelled as an ordered list of named columns.
A numeric column holds `Option ℚ` cells (`none` = `NaN` / missing value,
exact rationals otherwise); a text (object-dtype) column holds strings. -/

/-- One column's data. -/
inductive ColData where
  | num : List (Option ℚ) → ColData
  | str : List String → ColData
deriving DecidableEq

/-- A data frame: ordered, named columns. -/
structure Table where
  cols : List (Name × ColData)
deriving DecidableEq

/-- `df.columns`, in declared order. -/
def Table.columns (df : Table) : List Name := df.cols.map Prod.fst

/-- `name in df.columns`. -/
def Table.hasCol (df : Table) (n : Name) : Bool := df.columns.contains n

/-- Column lookup by (exact) name. -/
def Table.getCol (df : Table) (n : Name) : Option ColData :=
  (df.cols.find? (fun p => p.1 == n)).map Prod.snd

/-- Numeric-column lookup. -/
def Table.getNum (df : Table) (n : Name) : Option (List (Option ℚ)) :=
  match df.getCol n with
  | some (.num v) => some v
  | _ => none

/-- `df.select_dtypes(include="number")`: the numeric columns, in order. -/
def Table.numericCols (df : Table) : List (Name × List (Option ℚ)) :=
  df.cols.filterMap (fun p =>
    match p.2 with
    | .num v => some (p.1, v)
    | .str _ => none)

/-- `get_stress_column(df)` at the table level. -/
def Table.stressCol (df : Table) : Option Name := get_stress_column df.columns

/-! ## Means and group means -/

/-- The non-missing entries of a numeric column (pandas skips `NaN`). -/
def vals (col : List (Option ℚ)) : List ℚ := col.filterMap id

/-- `Series.mean()`: arithmetic mean over non-missing entries; `NaN`
(modelled `none`) when there are none. -/
def mean (col : List (Option ℚ)) : Option ℚ :=
  let v := vals col
  if v.isEmpty then none else some (v.sum / v.length)

/-- Distinct values of a categorical column, first occurrence first.
(pandas' `groupby` sorts group keys; key order is irrelevant to every
property stated below, so first-appearance order is used.) -/
def distinctsAux (seen : List String) : List String → List String
  | [] => []
  | g :: rest =>
      if seen.contains g then distinctsAux seen rest
      else g :: distinctsAux (g :: seen) rest

/-- Distinct values of a categorical column, first occurrence first. -/
def distincts (l : List String) : List String := distinctsAux [] l

/-- Target values of the rows whose group-column entry equals `k`. -/
def groupVals (g : List String) (t : List (Option ℚ)) (k : String) :
    List (Option ℚ) :=
  ((g.zip t).filter (fun p => p.1 == k)).map Prod.snd

/-- `df.groupby(g)[target].mean()` (`app.py` lines 87, 181, 188):
for each distinct value of the grouping column, the mean of the
corresponding target-column values. -/
def groupMeans (g : List String) (t : List (Option ℚ)) :
    List (String × Option ℚ) :=
  (distincts g).map (fun k => (k, mean (groupVals g t k)))

/-! ## Stress-tier classification (`app.py` lines 196–216) -/

/-- The three recommendation tiers. -/
inductive Tier where
  | High
  | Moderate
  | Low
deriving DecidableEq

/-- The classifier on a (well-defined) mean value:
`if avg_stress > 6: ... elif 4 <= avg_stress <= 6: ... else: ...`. -/
def classify (m : ℚ) : Tier :=
  if 6 < m then .High
  else if 4 ≤ m ∧ m ≤ 6 then .Moderate
  else .Low

/-- Python float comparison `m > c` where `m` may be `NaN` (`none`):
every comparison with `NaN` is false. -/
def gtNaN (m : Option ℚ) (c : ℚ) : Bool :=
  match m with
  | none => false
  | some v => decide (c < v)

/-- Python float comparison `c <= m` with `NaN` compared false. -/
def geNaN (m : Option ℚ) (c : ℚ) : Bool :=
  match m with
  | none => false
  | some v => decide (c ≤ v)

/-- Python float comparison `m <= c` with `NaN` compared false. -/
def leNaN (m : Option ℚ) (c : ℚ) : Bool :=
  match m with
  | none => false
  | some v => decide (v ≤ c)

/-- The recommendation branch exactly as written, over the possibly-`NaN`
`avg_stress`: `if avg_stress > 6 / elif 4 <= avg_stress <= 6 / else`. -/
def recommend (m : Option ℚ) : Tier :=
  if gtNaN m 6 then .High
  else if geNaN m 4 && leNaN m 6 then .Moderate
  else .Low

/-! ## Pearson correlation (`df.corr()`)

`DataFrame.corr` computes, for each pair of numeric columns, the Pearson
correlation over pairwise-complete observations:
`r = S_xy / √(S_xx · S_yy)` with `S_xy = Σ (xᵢ-x̄)(yᵢ-ȳ)` over the rows
where both cells are present, and `NaN` when a variance is zero (constant
or empty series).  To stay in exact arithmetic the value `n / √d` is
represented by the pair `(n, d)` (with `d > 0`); `none` represents `NaN`.
The strictly monotone map `n / √d ↦ sign n · n² / d` (`entryKey` below)
recovers the value order, equality, and the test against `1.0` exactly,
without square roots. -/

/-- One correlation-matrix entry: `some (n, d)` denotes `n / √d`;
`none` is `NaN`. -/
abbrev CorrEntry := Option (ℚ × ℚ)

/-- Rows where both series have a present value
(pandas' pairwise-complete-observation policy). -/
def pairRows (x y : List (Option ℚ)) : List (ℚ × ℚ) :=
  (x.zip y).filterMap (fun p =>
    match p with
    | (some a, some b) => some (a, b)
    | _ => none)

/-- Mean of the first components of the complete rows. -/
def meanFst (p : List (ℚ × ℚ)) : ℚ := (p.map Prod.fst).sum / p.length

/-- Mean of the second components of the complete rows. -/
def meanSnd (p : List (ℚ × ℚ)) : ℚ := (p.map Prod.snd).sum / p.length

/-- `S_xy`: sum of products of deviations from the means. -/
def sxy (p : List (ℚ × ℚ)) : ℚ :=
  (p.map (fun q => (q.1 - meanFst p) * (q.2 - meanSnd p))).sum

/-- `S_xx`: sum of squared deviations of the first series. -/
def sxx (p : List (ℚ × ℚ)) : ℚ :=
  (p.map (fun q => (q.1 - meanFst p) ^ 2)).sum

/-- `S_yy`: sum of squared deviations of the second series. -/
def syy (p : List (ℚ × ℚ)) : ℚ :=
  (p.map (fun q => (q.2 - meanSnd p) ^ 2)).sum

/-- The Pearson correlation of two numeric columns, in exact form:
`NaN` (`none`) when either variance vanishes, else the representation of
`S_xy / √(S_xx · S_yy)`. -/
def corrEntry (x y : List (Option ℚ)) : CorrEntry :=
  if sxx (pairRows x y) * syy (pairRows x y) = 0 then none
  else some (sxy (pairRows x y), sxx (pairRows x y) * syy (pairRows x y))

/-- Signed square `sign n · n² / d`, the order-preserving rational image
of `n / √d` for `d > 0`. -/
def signedSq (n d : ℚ) : ℚ :=
  if n < 0 then -(n ^ 2 / d) else n ^ 2 / d

/-- Sort/comparison key of an entry: `NaN` below every number
(pandas' `sort_values` keeps `NaN` last). -/
def entryKey : CorrEntry → WithBot ℚ
  | none => ⊥
  | some (n, d) => (signedSq n d : ℚ)

/-- An entry whose correlation value is exactly `1.0`. -/
def CorrEntry.isOne (e : CorrEntry) : Prop := entryKey e = (1 : ℚ)

/-- `sort_values(ascending=False)` comparison: larger keys first,
`NaN` last. -/
def corrDescLE (a b : Name × CorrEntry) : Bool :=
  decide (entryKey b.2 ≤ entryKey a.2)

/-- The full correlation matrix over the numeric columns:
entry at row `r`, column `c` is `corr(r, c)`. -/
def Table.corrMatrix (df : Table) : List (Name × List (Name × CorrEntry)) :=
  df.numericCols.map (fun c =>
    (c.1, df.numericCols.map (fun r => (r.1, corrEntry r.2 c.2))))

/-- `df[numeric_cols].corr()[stress_col]`: the target's column of the
correlation matrix, indexed by the numeric column names in order. -/
def corrRowFor (df : Table) (tv : List (Option ℚ)) : List (Name × CorrEntry) :=
  df.numericCols.map (fun p => (p.1, corrEntry p.2 tv))

/-- `df[numeric_cols].corr()[stress_col].sort_values(ascending=False)`
(`app.py` line 126). -/
def corrWithTarget (df : Table) (t : Name) : List (Name × CorrEntry) :=
  match df.getNum t with
  | none => []
  | some tv => (corrRowFor df tv).mergeSort corrDescLE

/-- A numeric column with two distinct present values
(positive variance, hence a well-defined self-correlation). -/
def nonconstant (v : List (Option ℚ)) : Prop :=
  ∃ a ∈ vals v, ∃ b ∈ vals v, a ≠ b

/-- One-column sample table used for concrete instantiations. -/
def sampleTable : Table :=
  ⟨[(codes "stress_level", ColData.num [some 0, some 1])]⟩

/-- Sample table with a non-constant column `x` and a constant column `c`. -/
def mixedTable : Table :=
  ⟨[(codes "x", ColData.num [some 0, some 1]),
    (codes "c", ColData.num [some 1, some 1])]⟩

/-! ## Loading (`load_data`, `app.py` lines 17–21)

The fetch and CSV parse happen inside `pd.read_csv(DATA_URL)`; the
repository's own code adds the column canonicalization and the cache.
The fetch/parse step is modelled from the spec below. -/

/-- Raw CSV content: a header row of field strings followed by data rows. -/
abbrev RawCsv := List (List String)

/-- The loader's failure taxonomy (spec §4.1/§7). -/
inductive LoadError where
  | UnreachableSource
  | MalformedData
deriving DecidableEq

/-- Modelled from the spec: the outcome of the single network fetch of the
CSV resource, which is not part of the repository's sources
(`pd.read_csv` performs it). -/
inductive FetchResult where
  | failure
  | success (content : RawCsv)
deriving DecidableEq

/-- One decimal digit. -/
def digitVal (c : Nat) : Option Nat :=
  if 48 ≤ c ∧ c ≤ 57 then some (c - 48) else none

/-- Value of a non-empty all-digit codepoint list. -/
def digitsVal (cs : List Nat) : Option Nat :=
  if cs.isEmpty then none
  else cs.foldl (fun acc c =>
    match acc, digitVal c with
    | some n, some d => some (10 * n + d)
    | _, _ => none) (some 0)

/-- Modelled from the spec: numeric parse of one CSV field
(type inference "numeric vs. text from content"); integers only,
optionally signed. -/
def numField (s : String) : Option ℤ :=
  match codes s with
  | 45 :: rest => (digitsVal rest).map (fun n => -(n : ℤ))
  | cs => (digitsVal cs).map (fun n => (n : ℤ))

/-- Numeric cells of a column, when every non-empty field parses as a
number (empty fields are missing values). -/
def optCells : List String → Option (List (Option ℚ))
  | [] => some []
  | f :: rest =>
      match (if f = "" then some none
             else (numField f).map (fun k => some ((k : ℚ)))),
            optCells rest with
      | some c, some cs => some (c :: cs)
      | _, _ => none

/-- Modelled from the spec: per-column type inference — a column is
numeric when every non-empty field parses as a number, text otherwise. -/
def inferCol (fields : List String) : ColData :=
  match optCells fields with
  | some cells => .num cells
  | none => .str fields

/-- Modelled from the spec: parse of the fetched content as tabular data;
fails on content with no header row or inconsistent column counts per row. -/
def parseCsv (content : RawCsv) : Option Table :=
  match content with
  | [] => none
  | header :: rows =>
      if rows.all (fun r => r.length == header.length) then
        some ⟨(List.range header.length).map (fun i =>
          (codes (header.getD i ""), inferCol (rows.map (fun r => r.getD i ""))))⟩
      else none

/-- Modelled from the spec: `pd.read_csv(DATA_URL)` — fetch, then parse;
a fetch failure and a parse failure are the two failure modes. -/
def read_csv (f : FetchResult) : Except LoadError Table :=
  match f with
  | .failure => .error .UnreachableSource
  | .success content =>
      match parseCsv content with
      | none => .error .MalformedData
      | some df => .ok df

/-- The canonicalization pass of `load_data` (`app.py` line 20,
`Page 3.py` line 74): `df.columns = df.columns.str.strip().str.lower().str.replace(" ", "_")`. -/
def canonTable (df : Table) : Table :=
  ⟨df.cols.map (fun p => (canonicalize p.1, p.2))⟩

/-- `load_data` of `app.py` (lines 17–21): read the CSV, then canonicalize
the column names once; errors propagate unchanged (no retry, no handler). -/
def load_data (f : FetchResult) : Except LoadError Table :=
  (read_csv f).map canonTable

/-- `load_data` of `Page 2.py` (`part_000` lines 19–21): returns the
parsed table as-is — no column canonicalization. -/
def load_data_page2 (f : FetchResult) : Except LoadError Table :=
  read_csv f

/-! ## Page rendering (the `if stress_col:` bodies of each page)

Each page's dynamic body is modelled as the list of presentation items it
hands to the charting layer; `Item.errorMsg` is the `st.error` message
shown when no stress column exists. -/

/-- One presentation item. -/
inductive Item where
  | preview : Table → Item
  | chart : Name → Item
  | groupChart : Name → List (String × Option ℚ) → Item
  | corrChart : List (Name × CorrEntry) → Item
  | metricAvg : Option ℚ → Item
  | recommendation : Tier → Item
  | errorMsg : Item
deriving DecidableEq

/-- Text-column accessor (grouping columns are categorical). -/
def Table.strCol (df : Table) (n : Name) : List String :=
  match df.getCol n with
  | some (.str v) => v
  | _ => []

/-- The target column's cells (its numeric data). -/
def stressValsOf (df : Table) (c : Name) : List (Option ℚ) :=
  (df.getNum c).getD []

/-- `df.head()` : first `n` rows. -/
def Table.headN (df : Table) (n : Nat) : Table :=
  ⟨df.cols.map (fun p =>
    (p.1, match p.2 with
          | .num v => .num (v.take n)
          | .str v => .str (v.take n)))⟩

/-- Page 1 — Home (`app.py` 46–61): dataset preview, shown regardless of
the stress column. -/
def homeBody (df : Table) : List Item :=
  [Item.preview (df.headN 5)]

/-- Page 2 — Stress Overview (`app.py` 66–105): histogram, optional
gender/age charts; `st.error` when no stress column. -/
def overviewBody (df : Table) : List Item :=
  match df.stressCol with
  | none => [Item.errorMsg]
  | some c =>
      [Item.chart c]
      ++ (if df.hasCol (codes "gender") then
            [Item.groupChart (codes "gender")
              (groupMeans (df.strCol (codes "gender")) (stressValsOf df c))]
          else [])
      ++ (if df.hasCol (codes "age") then [Item.chart (codes "age")] else [])

/-- Page 3 — Academic Factors (`app.py` 110–156): correlation bar chart and
further figures; `st.error` when no stress column. -/
def academicBody (df : Table) : List Item :=
  match df.stressCol with
  | none => [Item.errorMsg]
  | some c =>
      [Item.corrChart (corrWithTarget df c)]
      ++ (if 3 < df.numericCols.length then [Item.chart c] else [])
      ++ (if ((df.numericCols.map Prod.fst).filter (fun n => n ≠ c)).isEmpty
          then [] else [Item.chart c])

/-- Page 4 — Recommendations (`app.py` 173–226): average-stress metric,
optional gender / course-load charts, then the tier recommendation;
`st.error` when no stress column. -/
def recsBody (df : Table) : List Item :=
  match df.stressCol with
  | none => [Item.errorMsg]
  | some c =>
      let m := mean (stressValsOf df c)
      [Item.metricAvg m]
      ++ (if df.hasCol (codes "gender") then
            [Item.groupChart (codes "gender")
              (groupMeans (df.strCol (codes "gender")) (stressValsOf df c))]
          else [])
      ++ (if df.hasCol (codes "course_load") then
            [Item.groupChart (codes "course_load")
              (groupMeans (df.strCol (codes "course_load")) (stressValsOf df c))]
          else [])
      ++ [Item.recommendation (recommend m)]

/-! ## Helper lemmas on canonicalization -/

theorem pySpace_lowerChar (c : Nat) : pySpace (lowerChar c) = pySpace c := by
  unfold pySpace lowerChar
  split_ifs with h
  · rw [decide_eq_decide]
    omega
  · rfl

theorem lowerChar_idem (c : Nat) : lowerChar (lowerChar c) = lowerChar c := by
  simp only [lowerChar]
  split_ifs <;> omega

theorem dropWhile_map_lowerChar (s : Name) :
    (s.map lowerChar).dropWhile pySpace = (s.dropWhile pySpace).map lowerChar := by
  induction s with
  | nil => rfl
  | cons a t ih =>
      simp only [List.map_cons, List.dropWhile_cons, pySpace_lowerChar]
      cases h : pySpace a <;> simp [h, ih]

theorem strip_map_lowerChar (s : Name) :
    strip (s.map lowerChar) = (strip s).map lowerChar := by
  unfold strip
  rw [dropWhile_map_lowerChar, ← List.map_reverse, dropWhile_map_lowerChar,
    ← List.map_reverse]

theorem canonicalize_lowerName (s : Name) :
    canonicalize (lowerName s) = canonicalize s := by
  unfold canonicalize lowerName
  rw [strip_map_lowerChar]
  congr 1
  simp only [lowerName, List.map_map]
  exact List.map_congr_left (fun a _ => lowerChar_idem a)

theorem strip_pad {pre post : Name} (s : Name)
    (hpre : ∀ c ∈ pre, pySpace c = true) (hpost : ∀ c ∈ post, pySpace c = true) :
    strip (pre ++ s ++ post) = strip s := by
  unfold strip
  rw [List.append_assoc, List.dropWhile_append_of_pos hpre]
  rcases h2 : s.dropWhile pySpace with _ | ⟨c, rest⟩
  · have hall : ∀ x ∈ s, pySpace x := List.dropWhile_eq_nil_iff.mp h2
    have : (s ++ post).dropWhile pySpace = [] := by
      refine List.dropWhile_eq_nil_iff.mpr ?_
      intro x hx
      rcases List.mem_append.mp hx with hx | hx
      · exact hall x hx
      · exact hpost x hx
    rw [this]
  · rw [List.dropWhile_append, h2]
    simp only [List.isEmpty_cons, Bool.false_eq_true, if_false]
    rw [List.reverse_append,
      List.dropWhile_append_of_pos (by simpa using fun a ha => hpost a ha)]

/-! ## Helper lemmas on substring search and `find?` -/

theorem substringOf_iff (needle hay : Name) :
    substringOf needle hay = true ↔ needle <:+: hay := by
  induction hay with
  | nil => simp [substringOf, List.isEmpty_iff]
  | cons c rest ih =>
      simp [substringOf, Bool.or_eq_true, List.isPrefixOf_iff_prefix, ih,
        List.infix_cons_iff]

theorem find?_decomp {α : Type} {p : α → Bool} {l : List α} {c : α}
    (h : l.find? p = some c) :
    p c = true ∧ ∃ pre post, l = pre ++ c :: post ∧ ∀ d ∈ pre, p d = false := by
  induction l with
  | nil => simp [List.find?] at h
  | cons a t ih =>
      rw [List.find?_cons] at h
      cases hp : p a
      · rw [hp] at h
        obtain ⟨pc, pre, post, heq, hpre⟩ := ih h
        refine ⟨pc, a :: pre, post, by simp [heq], ?_⟩
        intro d hd
        rcases List.mem_cons.mp hd with rfl | hd
        · exact hp
        · exact hpre d hd
      · rw [hp] at h
        obtain rfl : a = c := by injection h
        exact ⟨hp, [], t, rfl, by simp⟩

/-! ## Helper lemmas on the correlation entries -/

theorem sxx_nonneg (p : List (ℚ × ℚ)) : 0 ≤ sxx p :=
  List.sum_nonneg (fun x hx => by
    obtain ⟨q, _, rfl⟩ := List.mem_map.mp hx
    positivity)

theorem syy_nonneg (p : List (ℚ × ℚ)) : 0 ≤ syy p :=
  List.sum_nonneg (fun x hx => by
    obtain ⟨q, _, rfl⟩ := List.mem_map.mp hx
    positivity)

theorem pairRows_self (v : List (Option ℚ)) :
    pairRows v v = (vals v).map (fun a => (a, a)) := by
  induction v with
  | nil => rfl
  | cons a t ih =>
      cases a with
      | none =>
          simpa [pairRows, vals, List.filterMap_cons] using ih
      | some x =>
          simpa [pairRows, vals, List.filterMap_cons] using ih

theorem pairRows_swap (x y : List (Option ℚ)) :
    pairRows y x = (pairRows x y).map Prod.swap := by
  unfold pairRows
  rw [← List.zip_swap, List.filterMap_map, List.map_filterMap]
  congr 1
  funext q
  rcases q with ⟨a, b⟩
  rcases a <;> rcases b <;> rfl

theorem meanFst_swap (p : List (ℚ × ℚ)) : meanFst (p.map Prod.swap) = meanSnd p := by
  unfold meanFst meanSnd
  rw [List.map_map, List.length_map]
  rfl

theorem meanSnd_swap (p : List (ℚ × ℚ)) : meanSnd (p.map Prod.swap) = meanFst p := by
  unfold meanFst meanSnd
  rw [List.map_map, List.length_map]
  rfl

theorem sxy_swap (p : List (ℚ × ℚ)) : sxy (p.map Prod.swap) = sxy p := by
  unfold sxy
  rw [meanFst_swap, meanSnd_swap, List.map_map]
  exact congrArg List.sum (List.map_congr_left (fun q _ => mul_comm _ _))

theorem sxx_swap (p : List (ℚ × ℚ)) : sxx (p.map Prod.swap) = syy p := by
  unfold sxx syy
  rw [meanFst_swap, List.map_map]
  rfl

theorem syy_swap (p : List (ℚ × ℚ)) : syy (p.map Prod.swap) = sxx p := by
  unfold sxx syy
  rw [meanSnd_swap, List.map_map]
  rfl

/-- The correlation is symmetric in value: the entries for `(x, y)` and
`(y, x)` have the same key (same sign and same squared value, hence the
same value `n/√d`; and `NaN` exactly together). -/
theorem corrEntry_symm_key (x y : List (Option ℚ)) :
    entryKey (corrEntry x y) = entryKey (corrEntry y x) := by
  unfold corrEntry
  rw [pairRows_swap x y, sxy_swap, sxx_swap, syy_swap,
    mul_comm (syy (pairRows x y)) (sxx (pairRows x y))]

theorem meanSnd_self (v : List (Option ℚ)) :
    meanSnd (pairRows v v) = meanFst (pairRows v v) := by
  rw [pairRows_self]
  unfold meanFst meanSnd
  rw [List.map_map, List.map_map]
  rfl

theorem sxy_self (v : List (Option ℚ)) : sxy (pairRows v v) = sxx (pairRows v v) := by
  unfold sxy sxx
  rw [meanSnd_self]
  apply congrArg List.sum
  apply List.map_congr_left
  intro q hq
  rw [pairRows_self] at hq
  obtain ⟨a, _, rfl⟩ := List.mem_map.mp hq
  ring

theorem syy_self (v : List (Option ℚ)) : syy (pairRows v v) = sxx (pairRows v v) := by
  unfold syy sxx
  rw [meanSnd_self]
  apply congrArg List.sum
  apply List.map_congr_left
  intro q hq
  rw [pairRows_self] at hq
  obtain ⟨a, _, rfl⟩ := List.mem_map.mp hq
  ring

theorem sum_zero_all_zero {l : List ℚ} (h : l.sum = 0) (h0 : ∀ x ∈ l, 0 ≤ x) :
    ∀ x ∈ l, x = 0 := by
  induction l with
  | nil => simp
  | cons a t ih =>
      have hts : 0 ≤ t.sum :=
        List.sum_nonneg (fun x hx => h0 x (List.mem_cons_of_mem _ hx))
      have ha : 0 ≤ a := h0 a (List.mem_cons_self a t)
      rw [List.sum_cons] at h
      have ha0 : a = 0 := by linarith
      have ht : t.sum = 0 := by linarith
      intro x hx
      rcases List.mem_cons.mp hx with rfl | hx
      · exact ha0
      · exact ih ht (fun z hz => h0 z (List.mem_cons_of_mem _ hz)) x hx

theorem sxx_self_pos {v : List (Option ℚ)} (h : nonconstant v) :
    0 < sxx (pairRows v v) := by
  rcases (sxx_nonneg (pairRows v v)).lt_or_eq with hp | hz
  · exact hp
  · exfalso
    obtain ⟨a, ha, b, hb, hab⟩ := h
    have hz' : ((pairRows v v).map
        (fun q => (q.1 - meanFst (pairRows v v)) ^ 2)).sum = 0 := hz.symm
    have hall := sum_zero_all_zero hz'
      (fun x hx => by obtain ⟨q, _, rfl⟩ := List.mem_map.mp hx; positivity)
    have hma : (a, a) ∈ pairRows v v := by
      rw [pairRows_self]; exact List.mem_map_of_mem _ ha
    have hmb : (b, b) ∈ pairRows v v := by
      rw [pairRows_self]; exact List.mem_map_of_mem _ hb
    have haz : (a - meanFst (pairRows v v)) ^ 2 = 0 :=
      hall _ (List.mem_map_of_mem _ hma)
    have hbz : (b - meanFst (pairRows v v)) ^ 2 = 0 :=
      hall _ (List.mem_map_of_mem _ hmb)
    have h1 : a - meanFst (pairRows v v) = 0 :=
      (pow_eq_zero_iff two_ne_zero).mp haz
    have h2 : b - meanFst (pairRows v v) = 0 :=
      (pow_eq_zero_iff two_ne_zero).mp hbz
    exact hab (by linarith)

theorem sum_const_list {l : List ℚ} {k : ℚ} (h : ∀ a ∈ l, a = k) :
    l.sum = l.length * k := by
  induction l with
  | nil => simp
  | cons a t ih =>
      rw [List.sum_cons, h a (List.mem_cons_self a t),
        ih (fun z hz => h z (List.mem_cons_of_mem _ hz))]
      simp only [List.length_cons]
      push_cast
      ring

/-- A constant (or empty) column has zero variance, so its
self-correlation is `NaN` — exactly pandas' behaviour on the diagonal. -/
theorem corrEntry_self_const {v : List (Option ℚ)} {k : ℚ}
    (h : ∀ a ∈ vals v, a = k) : corrEntry v v = none := by
  have hx : sxx (pairRows v v) = 0 := by
    unfold sxx
    apply List.sum_eq_zero
    intro x hx
    obtain ⟨q, hq, rfl⟩ := List.mem_map.mp hx
    rw [pairRows_self] at hq
    obtain ⟨a, ha, rfl⟩ := List.mem_map.mp hq
    show (a - meanFst (pairRows v v)) ^ 2 = 0
    have hmean : meanFst (pairRows v v) = k := by
      unfold meanFst
      rw [pairRows_self, List.map_map, List.length_map]
      have hfst : (vals v).map (Prod.fst ∘ fun a => (a, a)) = vals v :=
        (List.map_congr_left fun a _ => rfl).trans (List.map_id _)
      rw [hfst, sum_const_list h]
      have hn : ((vals v).length : ℚ) ≠ 0 :=
        Nat.cast_ne_zero.mpr (Nat.pos_iff_ne_zero.mp
          (List.length_pos.mpr (List.ne_nil_of_mem ha)))
      rw [mul_comm, mul_div_assoc, div_self hn, mul_one]
    rw [hmean, h a ha]
    ring
  unfold corrEntry
  rw [hx, zero_mul, if_pos rfl]

/-- Cauchy–Schwarz for lists of pairs of rationals. -/
theorem list_cauchy (l : List (ℚ × ℚ)) :
    ((l.map (fun q => q.1 * q.2)).sum) ^ 2
      ≤ (l.map (fun q => q.1 ^ 2)).sum * (l.map (fun q => q.2 ^ 2)).sum := by
  induction l with
  | nil => simp
  | cons a t ih =>
      simp only [List.map_cons, List.sum_cons]
      have hx : 0 ≤ (t.map (fun q => q.1 ^ 2)).sum :=
        List.sum_nonneg (fun x hx => by
          obtain ⟨q, _, rfl⟩ := List.mem_map.mp hx; positivity)
      have hy : 0 ≤ (t.map (fun q => q.2 ^ 2)).sum :=
        List.sum_nonneg (fun x hx => by
          obtain ⟨q, _, rfl⟩ := List.mem_map.mp hx; positivity)
      rcases hx.lt_or_eq with hxpos | hx0
      · nlinarith [ih, hy, hxpos,
          sq_nonneg (a.1 * (t.map (fun q => q.1 * q.2)).sum
            - a.2 * (t.map (fun q => q.1 ^ 2)).sum),
          sq_nonneg a.1, sq_nonneg a.2]
      · have hzsq : ((t.map (fun q => q.1 * q.2)).sum) ^ 2 = 0 :=
          le_antisymm (by nlinarith [ih]) (sq_nonneg _)
        have hz0 : (t.map (fun q => q.1 * q.2)).sum = 0 :=
          (pow_eq_zero_iff two_ne_zero).mp hzsq
        rw [hz0, ← hx0]
        nlinarith [mul_nonneg (sq_nonneg a.1) hy]

/-- Cauchy–Schwarz for the deviation sums: `S_xy² ≤ S_xx · S_yy`. -/
theorem corr_cauchy (p : List (ℚ × ℚ)) : sxy p ^ 2 ≤ sxx p * syy p := by
  have h := list_cauchy (p.map (fun q => (q.1 - meanFst p, q.2 - meanSnd p)))
  rw [List.map_map, List.map_map, List.map_map] at h
  exact h

/-- Every correlation value is at most `1.0` (in key form). -/
theorem entryKey_le_one (x y : List (Option ℚ)) :
    entryKey (corrEntry x y) ≤ ((1 : ℚ) : WithBot ℚ) := by
  unfold corrEntry
  split_ifs with h
  · exact bot_le
  · have hd : 0 < sxx (pairRows x y) * syy (pairRows x y) :=
      lt_of_le_of_ne (mul_nonneg (sxx_nonneg _) (syy_nonneg _)) (Ne.symm h)
    have hcs := corr_cauchy (pairRows x y)
    simp only [entryKey]
    rw [WithBot.coe_le_coe]
    unfold signedSq
    split_ifs with hn
    · have h2 : (0:ℚ) ≤ sxy (pairRows x y) ^ 2
          / (sxx (pairRows x y) * syy (pairRows x y)) := by positivity
      linarith
    · rw [div_le_one hd]
      exact hcs

/-- The self-correlation of a non-constant column is exactly `1.0`. -/
theorem corrEntry_self_isOne {v : List (Option ℚ)} (h : nonconstant v) :
    (corrEntry v v).isOne := by
  have hS := sxx_self_pos h
  unfold CorrEntry.isOne corrEntry
  rw [sxy_self, syy_self]
  rw [if_neg (ne_of_gt (mul_pos hS hS))]
  simp only [entryKey]
  rw [WithBot.coe_inj]
  unfold signedSq
  rw [if_neg (not_lt.mpr hS.le), pow_two]
  exact div_self (ne_of_gt (mul_pos hS hS))

/-! ## Claim theorems -/

/-- **C1.** `get_stress_column` scans the columns in declared order and
returns the first whose (lower-cased) name contains the substring
`"stress"`, `none` when no name does; on the canonicalized columns
`["age", "Stress Level", "gender"]` it returns `"stress_level"`, and the
earliest match in column order wins. -/
theorem C1_resolve_target :
    (∀ c : Name, hasStress c = true ↔ codes "stress" <:+: lowerName c)
    ∧ (∀ (cols : List Name) (c : Name), get_stress_column cols = some c →
        hasStress c = true
        ∧ ∃ pre post, cols = pre ++ c :: post ∧ ∀ d ∈ pre, hasStress d = false)
    ∧ (∀ cols : List Name,
        get_stress_column cols = none ↔ ∀ c ∈ cols, hasStress c = false)
    ∧ get_stress_column
        (([codes "age", codes "Stress Level", codes "gender"]).map canonicalize)
        = some (codes "stress_level")
    ∧ get_stress_column [codes "age", codes "gender"] = none := by
  refine ⟨fun c => substringOf_iff _ _,
    fun cols c h => find?_decomp h,
    fun cols => ?_, by decide, by decide⟩
  simp [get_stress_column, List.find?_eq_none]

/-- Witness for C1: on `["age", "stress_level", "stress_index", "gender"]`
the resolver picks `"stress_level"`, the earliest matching column. -/
theorem C1_resolve_target_witness :
    hasStress (codes "stress_level") = true
    ∧ ∃ pre post,
        [codes "age", codes "stress_level", codes "stress_index", codes "gender"]
          = pre ++ codes "stress_level" :: post
        ∧ ∀ d ∈ pre, hasStress d = false :=
  C1_resolve_target.2.1
    [codes "age", codes "stress_level", codes "stress_index", codes "gender"]
    (codes "stress_level") (by decide)

/-- **C2.** The tier classifier is boundary-inclusive on Moderate:
High exactly on mean > 6, Moderate exactly on 4 ≤ mean ≤ 6, Low exactly on
mean < 4; in particular 6.0 and 4.0 are Moderate, 6.01 High, 3.99 Low. -/
theorem C2_classify_boundaries :
    (∀ m : ℚ,
        (classify m = Tier.High ↔ 6 < m)
        ∧ (classify m = Tier.Moderate ↔ 4 ≤ m ∧ m ≤ 6)
        ∧ (classify m = Tier.Low ↔ m < 4))
    ∧ classify 6 = Tier.Moderate
    ∧ classify 4 = Tier.Moderate
    ∧ classify (601/100) = Tier.High
    ∧ classify (399/100) = Tier.Low := by
  refine ⟨fun m => ?_, by norm_num [classify], by norm_num [classify],
    by norm_num [classify], by norm_num [classify]⟩
  unfold classify
  split_ifs with h1 h2
  · exact ⟨⟨fun _ => h1, fun _ => rfl⟩,
      ⟨fun h => absurd h (by decide), fun hm => absurd h1 (by linarith)⟩,
      ⟨fun h => absurd h (by decide), fun hm => absurd h1 (by linarith)⟩⟩
  · exact ⟨⟨fun h => absurd h (by decide), fun hm => absurd hm (by linarith)⟩,
      ⟨fun _ => h2, fun _ => rfl⟩,
      ⟨fun h => absurd h (by decide), fun hm => absurd hm (by push_neg; linarith)⟩⟩
  · have hm4 : m < 4 := by
      by_contra hc
      push_neg at hc
      exact h2 ⟨hc, by linarith⟩
    exact ⟨⟨fun h => absurd h (by decide), fun hm => absurd hm (by linarith)⟩,
      ⟨fun h => absurd h (by decide), fun hm => absurd hm h2⟩,
      ⟨fun _ => hm4, fun _ => rfl⟩⟩

/-- **C4.** Canonicalization trims surrounding whitespace, lower-cases and
replaces spaces with underscores; `" Stress Level "` and `"stress_level"`
canonicalize to the same name, and the function is invariant under
leading/trailing whitespace and under the letter case of its input. -/
theorem C4_canonicalize :
    canonicalize (codes " Stress Level ") = codes "stress_level"
    ∧ canonicalize (codes "stress_level") = codes "stress_level"
    ∧ (∀ pre s post : Name,
        (∀ c ∈ pre, pySpace c = true) → (∀ c ∈ post, pySpace c = true) →
        canonicalize (pre ++ s ++ post) = canonicalize s)
    ∧ (∀ s t : Name, lowerName s = lowerName t →
        canonicalize s = canonicalize t) := by
  refine ⟨by decide, by decide, fun pre s post hpre hpost => ?_, fun s t h => ?_⟩
  · unfold canonicalize
    rw [strip_pad s hpre hpost]
  · rw [← canonicalize_lowerName s, h, canonicalize_lowerName]

/-- Witness for C4: whitespace padding and upper-casing do not change the
canonical name. -/
theorem C4_canonicalize_witness :
    canonicalize ([32, 32] ++ codes "x y" ++ [32, 9]) = canonicalize (codes "x y")
    ∧ canonicalize (codes "Stress LEVEL") = canonicalize (codes "stress level") :=
  ⟨C4_canonicalize.2.2.1 [32, 32] (codes "x y") [32, 9] (by decide) (by decide),
   C4_canonicalize.2.2.2 (codes "Stress LEVEL") (codes "stress level") (by decide)⟩

/-! ## Literal column lookups of each script -/

/-- The literal column names `app.py` looks up after its load
(lines 86/93/180/187). -/
def appLookups : List Name := [codes "gender", codes "age", codes "course_load"]

/-- The literal column names `Page 2.py` looks up after its load
(`part_000` lines 31, 41). -/
def page2Lookups : List Name := [codes "Stress Level", codes "GPA", codes "Study Hours"]

/-- The literal column names `Page 3.py` looks up after its load
(`part_000` lines 80, 87, 94). -/
def page3Lookups : List Name := [codes "sleep_duration", codes "physical_activity", codes "stress_level"]

/-- **C3 (counterexample).** `Page 2.py`'s loader performs no
canonicalization: loading a CSV headed `"Stress Level"` keeps the raw
name, and the page then looks that raw, non-canonical name up. -/
theorem C3_counterexample :
    Except.map Table.columns
        (load_data_page2 (FetchResult.success [["Stress Level"], ["3"]]))
      = Except.ok [codes "Stress Level"]
    ∧ canonicalize (codes "Stress Level") ≠ codes "Stress Level"
    ∧ codes "Stress Level" ∈ page2Lookups := by
  refine ⟨?_, by decide, by decide⟩
  simp [load_data_page2, read_csv, parseCsv, Table.columns, Except.map,
    List.range_succ]

/-- **C3 (amended).** `app.py` and `Page 3.py` canonicalize column names
once, at load time, and every column lookup they perform (the literal
names and the dynamically resolved stress column) uses a canonical name;
`Page 2.py` does not canonicalize at load and its lookups use the raw
column names. -/
theorem C3_canonicalization :
    (∀ f df, load_data f = Except.ok df →
        ∃ raw, read_csv f = Except.ok raw ∧ df = canonTable raw)
    ∧ (∀ df : Table, (canonTable df).columns = df.columns.map canonicalize)
    ∧ appLookups.all (fun n => canonicalize n == n) = true
    ∧ page3Lookups.all (fun n => canonicalize n == n) = true
    ∧ (∀ f, load_data_page2 f = read_csv f)
    ∧ page2Lookups.all (fun n => canonicalize n == n) = false
    ∧ (∀ (df : Table) (c : Name), df.stressCol = some c → c ∈ df.columns) := by
  refine ⟨fun f df h => ?_, fun df => ?_, by decide, by decide, fun f => rfl,
    by decide, fun df c h => ?_⟩
  · cases hf : read_csv f with
    | error e => rw [load_data, hf] at h; simp [Except.map] at h
    | ok raw =>
        rw [load_data, hf] at h
        simp only [Except.map] at h
        exact ⟨raw, rfl, by injection h with h; exact h.symm⟩
  · simp [canonTable, Table.columns]
  · have h' : df.columns.find? hasStress = some c := h
    exact List.mem_of_find?_eq_some h'

/-- Witness for C3 (amended): a concrete successful load factors through
`canonTable`, and a concretely resolved stress column is one of the
table's own column names. -/
theorem C3_canonicalization_witness :
    (∃ raw, read_csv (FetchResult.success [["A"], ["x"]]) = Except.ok raw
        ∧ (⟨[(codes "a", ColData.str ["x"])]⟩ : Table) = canonTable raw)
    ∧ codes "stress_level"
        ∈ (⟨[(codes "stress_level", ColData.str ["x"])]⟩ : Table).columns :=
  ⟨C3_canonicalization.1 (FetchResult.success [["A"], ["x"]])
      ⟨[(codes "a", ColData.str ["x"])]⟩ (by rfl),
   C3_canonicalization.2.2.2.2.2.2 ⟨[(codes "stress_level", ColData.str ["x"])]⟩
      (codes "stress_level") (by decide)⟩

/-- **C5.** When no column name contains `"stress"`, every page body that
depends on the target column collapses to the informational error message
(no target-dependent computation is reached), and the Home page still
renders its dataset preview. -/
theorem C5_no_target_skips (df : Table) (h : df.stressCol = none) :
    overviewBody df = [Item.errorMsg]
    ∧ academicBody df = [Item.errorMsg]
    ∧ recsBody df = [Item.errorMsg]
    ∧ homeBody df = [Item.preview (df.headN 5)] := by
  refine ⟨?_, ?_, ?_, rfl⟩ <;> simp [overviewBody, academicBody, recsBody, h]

/-- Witness for C5 at a table with columns `["age", "gender"]`. -/
theorem C5_no_target_skips_witness :
    overviewBody ⟨[(codes "age", ColData.num []), (codes "gender", ColData.str [])]⟩
      = [Item.errorMsg]
    ∧ academicBody ⟨[(codes "age", ColData.num []), (codes "gender", ColData.str [])]⟩
      = [Item.errorMsg]
    ∧ recsBody ⟨[(codes "age", ColData.num []), (codes "gender", ColData.str [])]⟩
      = [Item.errorMsg]
    ∧ homeBody ⟨[(codes "age", ColData.num []), (codes "gender", ColData.str [])]⟩
      = [Item.preview
          ((⟨[(codes "age", ColData.num []), (codes "gender", ColData.str [])]⟩ : Table).headN 5)] :=
  C5_no_target_skips
    ⟨[(codes "age", ColData.num []), (codes "gender", ColData.str [])]⟩ (by decide)

/-- **C7.** `groupMeans` pairs each distinct value of the grouping column
with the mean of the target values of that group's rows; on groups
`{A: [2,4], B: [6,8]}` it yields `{A: 3.0, B: 7.0}`; and when the grouping
column (`course_load`) is absent the page renders no such chart and no
error. -/
theorem C7_group_means :
    (∀ (g : List String) (t : List (Option ℚ)) (k : String),
        k ∈ distincts g → (k, mean (groupVals g t k)) ∈ groupMeans g t)
    ∧ (∀ (g : List String) (t : List (Option ℚ)),
        (groupMeans g t).map Prod.fst = distincts g)
    ∧ groupMeans ["A", "A", "B", "B"] [some 2, some 4, some 6, some 8]
        = [("A", some 3), ("B", some 7)]
    ∧ (∀ (df : Table) (c : Name), df.stressCol = some c →
        df.hasCol (codes "course_load") = false →
        (∀ gm, Item.groupChart (codes "course_load") gm ∉ recsBody df)
        ∧ Item.errorMsg ∉ recsBody df) := by
  have hne : codes "course_load" ≠ codes "gender" := by decide
  refine ⟨fun g t k hk => List.mem_map_of_mem _ hk,
    fun g t => by
      simp only [groupMeans, List.map_map]
      exact (List.map_congr_left fun a _ => rfl).trans (List.map_id _),
    ?_, fun df c h hcl => ?_⟩
  · simp [groupMeans, distincts, distinctsAux, groupVals, mean, vals,
      List.filterMap_cons]
    norm_num
  · constructor
    · intro gm
      by_cases hg : df.hasCol (codes "gender") <;>
        simp [recsBody, h, hcl, hg, hne]
    · by_cases hg : df.hasCol (codes "gender") <;>
        simp [recsBody, h, hcl, hg]

/-- Witness for C7: membership of a concrete group mean, and the
course-load chart absent from a concrete table lacking that column. -/
theorem C7_group_means_witness :
    ("A", mean (groupVals ["A", "B"] [some 1, some 2] "A"))
      ∈ groupMeans ["A", "B"] [some 1, some 2]
    ∧ Item.groupChart (codes "course_load") []
        ∉ recsBody ⟨[(codes "stress_level", ColData.num [])]⟩ :=
  ⟨C7_group_means.1 ["A", "B"] [some 1, some 2] "A" (by decide),
   (C7_group_means.2.2.2 ⟨[(codes "stress_level", ColData.num [])]⟩
      (codes "stress_level") (by decide) (by decide)).1 []⟩

/-- **C9.** The loader fails with `UnreachableSource` exactly on fetch
failure, with `MalformedData` exactly on unparsable content, and has no
other failure mode. -/
theorem C9_loader_error_modes :
    load_data FetchResult.failure = Except.error LoadError.UnreachableSource
    ∧ (∀ content, parseCsv content = none →
        load_data (FetchResult.success content) = Except.error LoadError.MalformedData)
    ∧ (∀ f : FetchResult,
        (∃ df, load_data f = Except.ok df)
        ∨ load_data f = Except.error LoadError.UnreachableSource
        ∨ load_data f = Except.error LoadError.MalformedData) := by
  refine ⟨rfl, fun content h => ?_, fun f => ?_⟩
  · simp [load_data, read_csv, h, Except.map]
  · cases f with
    | failure => exact Or.inr (Or.inl rfl)
    | success content =>
        cases h : parseCsv content with
        | none => exact Or.inr (Or.inr (by simp [load_data, read_csv, h, Except.map]))
        | some df =>
            exact Or.inl ⟨canonTable df, by simp [load_data, read_csv, h, Except.map]⟩

/-- Witness for C9: a row with an inconsistent column count is rejected as
`MalformedData`. -/
theorem C9_loader_error_modes_witness :
    load_data (FetchResult.success [["a"], ["1", "2"]])
      = Except.error LoadError.MalformedData :=
  C9_loader_error_modes.2.1 [["a"], ["1", "2"]] (by decide)

/-- **C10.** When the resolved target column is empty or all-missing its
mean is `NaN`; both threshold comparisons are then false, so the
recommendation falls through to the `else` branch: the page shows the
Low-stress recommendation and no error, with no separate
insufficient-data handling. -/
theorem C10_all_missing_target_low (df : Table) (c : Name) (v : List (Option ℚ))
    (h1 : df.stressCol = some c) (h2 : df.getNum c = some v)
    (h3 : ∀ x ∈ v, x = none) :
    mean (stressValsOf df c) = none
    ∧ recommend (mean (stressValsOf df c)) = Tier.Low
    ∧ Item.recommendation Tier.Low ∈ recsBody df
    ∧ Item.errorMsg ∉ recsBody df := by
  have hv : stressValsOf df c = v := by simp [stressValsOf, h2]
  have hm : mean (stressValsOf df c) = none := by
    rw [hv]
    unfold mean vals
    have hnil : v.filterMap id = [] := List.filterMap_eq_nil_iff.mpr h3
    simp [hnil]
  have hr : recommend none = Tier.Low := rfl
  refine ⟨hm, by rw [hm]; exact rfl, ?_, ?_⟩
  · simp [recsBody, h1, hm, hr]
  · by_cases hg : df.hasCol (codes "gender") <;>
      by_cases hcl : df.hasCol (codes "course_load") <;>
      simp [recsBody, h1, hg, hcl]

/-- Witness for C10 at a one-column table whose stress column holds only
missing values. -/
theorem C10_all_missing_target_low_witness :
    mean (stressValsOf ⟨[(codes "stress_level", ColData.num [none, none])]⟩
        (codes "stress_level")) = none
    ∧ recommend (mean (stressValsOf ⟨[(codes "stress_level", ColData.num [none, none])]⟩
        (codes "stress_level"))) = Tier.Low
    ∧ Item.recommendation Tier.Low
        ∈ recsBody ⟨[(codes "stress_level", ColData.num [none, none])]⟩
    ∧ Item.errorMsg ∉ recsBody ⟨[(codes "stress_level", ColData.num [none, none])]⟩ :=
  C10_all_missing_target_low ⟨[(codes "stress_level", ColData.num [none, none])]⟩
    (codes "stress_level") [none, none] (by decide) (by decide) (by decide)

/-! ## C6 and C8: the correlation claims -/

/-- The sort comparison is transitive. -/
theorem corrDescLE_trans : ∀ a b c : Name × CorrEntry,
    corrDescLE a b → corrDescLE b c → corrDescLE a c := by
  intro a b c hab hbc
  simp only [corrDescLE, decide_eq_true_eq] at *
  exact le_trans hbc hab

/-- The sort comparison is total. -/
theorem corrDescLE_total : ∀ a b : Name × CorrEntry,
    corrDescLE a b || corrDescLE b a := by
  intro a b
  rcases le_total (entryKey a.2) (entryKey b.2) with h | h <;>
    simp [corrDescLE, h]

/-- **C6.** `corrWithTarget` is the target's row of the correlation matrix
over the numeric columns, sorted by descending correlation value; the
target's self-correlation is exactly `1.0` and the entry at the top of the
sorted result carries that maximal value `1.0`. -/
theorem C6_corr_with_target (df : Table) (t : Name) (tv : List (Option ℚ))
    (h1 : df.getNum t = some tv) (h2 : (t, tv) ∈ df.numericCols)
    (h3 : nonconstant tv) :
    (t, df.numericCols.map (fun r => (r.1, corrEntry r.2 tv))) ∈ df.corrMatrix
    ∧ corrWithTarget df t = (corrRowFor df tv).mergeSort corrDescLE
    ∧ (corrWithTarget df t).Perm (corrRowFor df tv)
    ∧ (corrWithTarget df t).Pairwise (fun a b => corrDescLE a b = true)
    ∧ (t, corrEntry tv tv) ∈ corrRowFor df tv
    ∧ (corrEntry tv tv).isOne
    ∧ ∃ e rest, corrWithTarget df t = e :: rest ∧ CorrEntry.isOne e.2 := by
  have hrow : corrWithTarget df t = (corrRowFor df tv).mergeSort corrDescLE := by
    simp [corrWithTarget, h1]
  have hperm : (corrWithTarget df t).Perm (corrRowFor df tv) := by
    rw [hrow]; exact List.mergeSort_perm _ _
  have hpair : (corrWithTarget df t).Pairwise (fun a b => corrDescLE a b = true) := by
    rw [hrow]
    simpa using List.sorted_mergeSort corrDescLE_trans corrDescLE_total
      (corrRowFor df tv)
  have hself_mem : (t, corrEntry tv tv) ∈ corrRowFor df tv := by
    simpa [corrRowFor] using
      List.mem_map_of_mem (fun p => (p.1, corrEntry p.2 tv)) h2
  have hone : (corrEntry tv tv).isOne := corrEntry_self_isOne h3
  refine ⟨List.mem_map_of_mem _ h2, hrow, hperm, hpair, hself_mem, hone, ?_⟩
  rcases hs : corrWithTarget df t with _ | ⟨e, rest⟩
  · exfalso
    have hmem : (t, corrEntry tv tv) ∈ corrWithTarget df t :=
      (hperm.mem_iff).mpr hself_mem
    rw [hs] at hmem
    exact List.not_mem_nil _ hmem
  · refine ⟨e, rest, rfl, ?_⟩
    have hmem_sorted : (t, corrEntry tv tv) ∈ e :: rest := by
      rw [← hs]; exact (hperm.mem_iff).mpr hself_mem
    have hkey_le : entryKey (corrEntry tv tv) ≤ entryKey e.2 := by
      rcases List.mem_cons.mp hmem_sorted with heq | hmem
      · exact le_of_eq (congrArg (fun z => entryKey z.2) heq)
      · have hp := hpair
        rw [hs] at hp
        have hle := (List.pairwise_cons.mp hp).1 _ hmem
        simpa [corrDescLE, decide_eq_true_eq] using hle
    have he_le_one : entryKey e.2 ≤ ((1 : ℚ) : WithBot ℚ) := by
      have he_sorted : e ∈ corrWithTarget df t := by
        rw [hs]; exact List.mem_cons_self _ _
      have he_row : e ∈ corrRowFor df tv := (hperm.mem_iff).mp he_sorted
      simp only [corrRowFor] at he_row
      obtain ⟨q, _, rfl⟩ := List.mem_map.mp he_row
      exact entryKey_le_one _ _
    unfold CorrEntry.isOne at hone ⊢
    rw [hone] at hkey_le
    exact le_antisymm he_le_one hkey_le

/-- Witness for C6 on `sampleTable` whose stress column is `[0, 1]`. -/
theorem C6_corr_with_target_witness :
    (codes "stress_level",
        sampleTable.numericCols.map
          (fun r => (r.1, corrEntry r.2 [some (0:ℚ), some 1])))
      ∈ sampleTable.corrMatrix
    ∧ corrWithTarget sampleTable (codes "stress_level")
      = (corrRowFor sampleTable [some (0:ℚ), some 1]).mergeSort corrDescLE
    ∧ (corrWithTarget sampleTable (codes "stress_level")).Perm
        (corrRowFor sampleTable [some (0:ℚ), some 1])
    ∧ (corrWithTarget sampleTable (codes "stress_level")).Pairwise
        (fun a b => corrDescLE a b = true)
    ∧ (codes "stress_level", corrEntry [some (0:ℚ), some 1] [some (0:ℚ), some 1])
      ∈ corrRowFor sampleTable [some (0:ℚ), some 1]
    ∧ (corrEntry [some (0:ℚ), some 1] [some (0:ℚ), some 1]).isOne
    ∧ ∃ e rest, corrWithTarget sampleTable (codes "stress_level") = e :: rest
        ∧ CorrEntry.isOne e.2 :=
  C6_corr_with_target sampleTable (codes "stress_level") [some 0, some 1]
    (by decide) (by decide) ⟨0, by decide, 1, by decide, by decide⟩

/-- **C8 (counterexample).** A table with a non-constant numeric column
`x` and a constant numeric column `c`: the diagonal entry for `c` is `NaN`
(zero variance), not `1.0`, so not every diagonal entry of the matrix
equals `1.0`. -/
theorem C8_counterexample :
    (codes "x", [some (0:ℚ), some 1]) ∈ mixedTable.numericCols
    ∧ nonconstant [some (0:ℚ), some 1]
    ∧ (codes "c", [some (1:ℚ), some 1]) ∈ mixedTable.numericCols
    ∧ corrEntry [some (1:ℚ), some 1] [some (1:ℚ), some 1] = none
    ∧ ¬ (corrEntry [some (1:ℚ), some 1] [some (1:ℚ), some 1]).isOne := by
  have hc : corrEntry [some (1:ℚ), some 1] [some (1:ℚ), some 1] = none :=
    corrEntry_self_const (k := 1) (by decide)
  refine ⟨?_, ⟨0, by decide, 1, by decide, by decide⟩, ?_, hc, ?_⟩
  · simp [mixedTable, Table.numericCols, List.filterMap_cons]
  · simp [mixedTable, Table.numericCols, List.filterMap_cons]
  · rw [hc]
    unfold CorrEntry.isOne
    simp [entryKey]

/-- **C8 (amended).** The correlation matrix is symmetric in value for
every pair of numeric columns; the diagonal entry of every non-constant
numeric column is exactly `1.0`; and the diagonal entry of a constant
numeric column is `NaN` rather than `1.0`. -/
theorem C8_corr_symm_diag :
    (∀ (df : Table) (i j : Name) (x y : List (Option ℚ)),
        (i, x) ∈ df.numericCols → (j, y) ∈ df.numericCols →
        entryKey (corrEntry x y) = entryKey (corrEntry y x))
    ∧ (∀ x : List (Option ℚ), nonconstant x → (corrEntry x x).isOne)
    ∧ (∀ (x : List (Option ℚ)) (k : ℚ), (∀ a ∈ vals x, a = k) →
        corrEntry x x = none) :=
  ⟨fun _ _ _ x y _ _ => corrEntry_symm_key x y,
   fun _ h => corrEntry_self_isOne h,
   fun _ _ h => corrEntry_self_const h⟩

/-- Witness for C8 (amended) on `mixedTable`: symmetry of the off-diagonal
pair, the `1.0` diagonal of the non-constant column, and the `NaN`
diagonal of the constant column. -/
theorem C8_corr_symm_diag_witness :
    entryKey (corrEntry [some (0:ℚ), some 1] [some (1:ℚ), some 1])
      = entryKey (corrEntry [some (1:ℚ), some 1] [some (0:ℚ), some 1])
    ∧ (corrEntry [some (0:ℚ), some 1] [some (0:ℚ), some 1]).isOne
    ∧ corrEntry [some (1:ℚ), some 1] [some (1:ℚ), some 1] = none :=
  ⟨C8_corr_symm_diag.1 mixedTable (codes "x") (codes "c")
      [some 0, some 1] [some 1, some 1]
      (by simp [mixedTable, Table.numericCols, List.filterMap_cons])
      (by simp [mixedTable, Table.numericCols, List.filterMap_cons]),
   C8_corr_symm_diag.2.1 [some 0, some 1]
      ⟨0, by decide, 1, by decide, by decide⟩,
   C8_corr_symm_diag.2.2 [some 1, some 1] 1 (by decide)⟩

end StressDash
